import Mathlib

/-!
Verification of the inventory application's presentation classifiers,
category grouping/pagination, and low-stock synchronization engine.

The Python source is shallowly embedded:
* `datetime` values are modelled as integers (seconds); the `.days` field of a
  timedelta is Python's floor division of the difference by 86400, embedded as
  `Int.fdiv`.
* the relational store is modelled as a `List Item`; a SQL query
  `filter_by(category=c).order_by(name)` becomes filtering the list and sorting
  by name, `limit(s).offset(o)` becomes `(·.drop o).take s`, and
  `with_entities(category).distinct()` becomes deduplicating the category
  column;
* the external Google Tasks API is an abstract environment of response
  functions, and each HTTP call the sync loop issues is recorded as an
  `ApiCall` value so that "no request was made for this item" is expressible;
* the ORM's in-place mutation of items followed by `db.session.commit()` is
  modelled by rebuilding the item list with each processed item replaced by
  its updated record.
-/

/-- Embedding of the `Item` model (`app/models/item.py`): `quantity` and
`alert_quantity` are nullable integer columns, `last_checked` and
`added_to_task` nullable datetimes (modelled as integer timestamps), and
`task_id` a nullable string column. -/
structure Item where
  id : Nat
  name : String
  category : String
  quantity : Option Int
  unit : String
  alert_quantity : Option Int
  last_checked : Option Int
  task_id : Option String
  added_to_task : Option Int
deriving DecidableEq, Repr

/-- Python's `(now - t).days`: floor division of the difference in seconds by
86400 (`timedelta.days` floors towards minus infinity, as `Int.fdiv` does). -/
def daysDifference (now t : Int) : Int :=
  Int.fdiv (now - t) 86400

/-- Embedding of `get_row_color` (`app/utils/helpers.py`).  A present datetime
is always truthy in Python, so `if last_checked:` is `Option.isSome`. -/
def get_row_color (now : Int) (last_checked : Option Int) : String :=
  match last_checked with
  | some t =>
    let d := daysDifference now t
    if d < 1 then "#00ff00aa"
    else if 1 ≤ d ∧ d < 4 then "#ff9800aa"
    else if 4 ≤ d ∧ d ≤ 8 then "#ff8c00aa"
    else "#ff0000aa"
  | none => "grey"

/-- Embedding of `get_warning_color` (`app/utils/helpers.py`): branches on
`quantity - alert_quantity` exactly as the source does, after the
`is not None` guards. -/
def get_warning_color (quantity alert_quantity : Option Int) : String :=
  match quantity, alert_quantity with
  | some q, some a =>
    let quantity_difference := q - a
    if quantity_difference = 0 then "#ff9800aa"
    else if quantity_difference < 0 then "#ff0000aa"
    else "#00ff00aa"
  | _, _ => "grey"

/-- Observable program state for the purity claims: the wall clock read by
`datetime.now()` and the item store.  The classifier bodies read no other
state and write none. -/
structure ProgState where
  clock : Int
  items : List Item
deriving DecidableEq, Repr

/-- `get_row_color` as a state-passing call: the body only reads the clock
(through `datetime.now()`) and its argument, and returns the state unchanged,
mirroring the absence of any assignment to non-local state in the source. -/
def get_row_color_call (st : ProgState) (last_checked : Option Int) :
    String × ProgState :=
  (get_row_color st.clock last_checked, st)

/-- `get_warning_color` as a state-passing call: the body reads only its two
arguments and returns the state unchanged. -/
def get_warning_color_call (st : ProgState) (q a : Option Int) :
    String × ProgState :=
  (get_warning_color q a, st)


/-! ## Category grouping and pagination (`get_items_by_category`) -/

/-- Kernel-computable lexicographic comparison on character lists (code
points); embeds the text ordering used by `order_by(Item.name)`. -/
def lexLe : List Char → List Char → Bool
  | [], _ => true
  | _ :: _, [] => false
  | c :: cs, d :: ds =>
    if c.toNat < d.toNat then true
    else if d.toNat < c.toNat then false
    else lexLe cs ds

/-- Name ordering on items, for `order_by(Item.name)`. -/
def nameLe (a b : Item) : Prop :=
  lexLe a.name.data b.name.data = true

instance : DecidableRel nameLe :=
  fun a b => inferInstanceAs (Decidable (lexLe a.name.data b.name.data = true))

/-- Distinct categories of the stored items:
`Item.query.with_entities(Item.category).distinct()`. -/
def distinctCategories (db : List Item) : List String :=
  (db.map (·.category)).dedup

/-- All items of one category, sorted by name:
`Item.query.filter_by(category=c).order_by(Item.name)`. -/
def catItemsSorted (db : List Item) (c : String) : List Item :=
  List.insertionSort nameLe (db.filter (fun it => it.category == c))

/-- The page slice of one category's sorted items:
`query.limit(s).offset((p - 1) * s)`. -/
def pageSlice (db : List Item) (p s : Nat) (c : String) : List Item :=
  ((catItemsSorted db c).drop ((p - 1) * s)).take s

/-- One loop iteration of `get_items_by_category`: skip falsy (empty)
category names, and only keep a category whose current page is non-empty. -/
def entryFor (db : List Item) (p s : Nat) (c : String) : Option (String × List Item) :=
  if c = "" then none
  else if (pageSlice db p s c).isEmpty then none
  else some (c, pageSlice db p s c)

/-- The loop of `get_items_by_category` after input validation; the result
dictionary is an association list in category iteration order.  (The
`items_per_page > 0` test in the source is always true after validation, so
the unpaginated branch is dead; the computed `total_items` running total is
never returned.) -/
def getItemsCore (db : List Item) (p s : Nat) : List (String × List Item) :=
  (distinctCategories db).filterMap (entryFor db p s)

/-- Embedding of `get_items_by_category` (`app/utils/helpers.py`), including
the input validation `if not isinstance(page, int) or page < 1: page = 1`
and `if not isinstance(items_per_page, int) or items_per_page < 1:
items_per_page = 50`. -/
def get_items_by_category (db : List Item) (page items_per_page : Int) :
    List (String × List Item) :=
  let p : Nat := if page < 1 then 1 else page.toNat
  let s : Nat := if items_per_page < 1 then 50 else items_per_page.toNat
  getItemsCore db p s

/-- Dictionary lookup on the returned association list. -/
def getCat : List (String × List Item) → String → List Item
  | [], _ => []
  | e :: rest, c => if e.1 = c then e.2 else getCat rest c

/-- All items of one page in iteration order (the page's dictionary values,
concatenated). -/
def pageItems (r : List (String × List Item)) : List Item :=
  r.flatMap (·.2)

/-- Concatenation, over pages `1..P`, of the lists returned for category
`c`. -/
def allPagesCat (db : List Item) (P s : Nat) (c : String) : List Item :=
  (List.range P).flatMap
    (fun i => getCat (get_items_by_category db ((i : Int) + 1) (s : Int)) c)

/-- Concatenation of every item of every page `1..P`. -/
def allPagesFlatten (db : List Item) (P s : Nat) : List Item :=
  (List.range P).flatMap
    (fun i => pageItems (get_items_by_category db ((i : Int) + 1) (s : Int)))

/-! ## Low-stock synchronization (`sync_low_inventory_items`) -/

/-- Python truthiness of a nullable string column: `None` and `""` are falsy. -/
def truthyStr : Option String → Bool
  | none => false
  | some s => !(s == "")

/-- The SQL selection `Item.query.filter(Item.quantity <= Item.alert_quantity)`:
a NULL on either side makes the comparison NULL, excluding the row. -/
def lowStock (it : Item) : Bool :=
  match it.quantity, it.alert_quantity with
  | some q, some a => q ≤ a
  | _, _ => false

/-- The skip guard of the sync loop:
`item.task_id and item.added_to_task and item.last_checked and
item.last_checked <= item.added_to_task` under Python truthiness. -/
def shouldSkip (it : Item) : Bool :=
  truthyStr it.task_id &&
    match it.added_to_task, it.last_checked with
    | some att, some lc => lc ≤ att
    | _, _ => false

/-- An observable HTTP request issued to the external Google Tasks API. -/
inductive ApiCall where
  | update (taskId tasklistId title notes : String)
  | create (title notes tasklistId : String)
deriving DecidableEq, Repr

/-- Abstract environment for one sync run: authentication state, the
configured default task list and per-category mappings (read from `Settings`
and `CategoryTaskMapping`), and the external API's responses.
`updateTask` abstracts `GoogleTasksService.update_task` (GET of the existing
task followed by PUT, reported as one boolean outcome), `addTask` abstracts
`GoogleTasksService.add_task` (the created task's id, or `none` on failure),
and `apiError` the service's current `get_error()` text. -/
structure SyncEnv where
  authenticated : Bool
  authError : String
  defaultTasklist : Option (String × String)
  mapping : String → Option (String × String)
  updateTask : String → String → String → String → Bool
  addTask : String → String → String → Option String
  apiError : String

/-- `CategoryTaskMapping.get_mapping_for_category`, falling back to the
default task list: returns the target tasklist id. -/
def resolveTasklist (env : SyncEnv) (dflt : String × String) (c : String) : String :=
  match env.mapping c with
  | some m => m.1
  | none => dflt.1

/-- Python `str(x)` of a nullable integer, as interpolated into the notes. -/
def optIntRepr : Option Int → String
  | none => "None"
  | some n => toString n

/-- `item.last_checked.strftime('%Y-%m-%d') if item.last_checked else 'Aldrig'`;
the date rendering of a present timestamp is modelled as its decimal form. -/
def dateRepr : Option Int → String
  | none => "Aldrig"
  | some t => toString t

/-- The task notes built for an item by the sync loop. -/
def itemNotes (it : Item) : String :=
  "Kategori: " ++ it.category ++
    "\nNuvarande antal: " ++ optIntRepr it.quantity ++ " " ++ it.unit ++
    "\nLarmgräns: " ++ optIntRepr it.alert_quantity ++ " " ++ it.unit ++
    "\nSenast kontrollerad: " ++ dateRepr it.last_checked

/-- Outcome of the sync loop body for one item: the item's state after the
iteration, the increment to `synced_items`, the error string appended (if
any), and the API requests issued. -/
structure StepResult where
  item : Item
  synced : Nat
  err : Option String
  calls : List ApiCall
deriving DecidableEq, Repr

/-- One iteration of the `for item in items_to_sync` loop
(`app/utils/google_tasks.py`): skip already-synced unchanged items; resolve
the target task list; update the existing task when `item.task_id` is truthy,
clearing `task_id` and falling through to creation when the update fails;
create a new task when `task_id` is falsy (or was just cleared), recording
the new id and stamping `added_to_task` on success, else appending an error. -/
def syncStep (env : SyncEnv) (dflt : String × String) (now : Int) (it : Item) :
    StepResult :=
  if shouldSkip it then ⟨it, 0, none, []⟩
  else
    let tasklist_id := resolveTasklist env dflt it.category
    let title := it.name
    let notes := itemNotes it
    if truthyStr it.task_id then
      let tid := it.task_id.getD ""
      if env.updateTask tid tasklist_id title notes then
        ⟨{ it with added_to_task := some now }, 1, none,
          [ApiCall.update tid tasklist_id title notes]⟩
      else
        match env.addTask title notes tasklist_id with
        | some newId =>
          ⟨{ it with task_id := some newId, added_to_task := some now }, 1, none,
            [ApiCall.update tid tasklist_id title notes,
              ApiCall.create title notes tasklist_id]⟩
        | none =>
          ⟨{ it with task_id := none }, 0,
            some ("Failed to create task for " ++ it.name ++ ": " ++ env.apiError),
            [ApiCall.update tid tasklist_id title notes,
              ApiCall.create title notes tasklist_id]⟩
    else
      match env.addTask title notes tasklist_id with
      | some newId =>
        ⟨{ it with task_id := some newId, added_to_task := some now }, 1, none,
          [ApiCall.create title notes tasklist_id]⟩
      | none =>
        ⟨it, 0,
          some ("Failed to create task for " ++ it.name ++ ": " ++ env.apiError),
          [ApiCall.create title notes tasklist_id]⟩

/-- The sync loop over the selected items, aggregating the success count, the
error list, and every API request issued, in iteration order. -/
def syncRun (env : SyncEnv) (dflt : String × String) (now : Int) :
    List Item → Nat × List String × List ApiCall
  | [] => (0, [], [])
  | it :: rest =>
    let r := syncStep env dflt now it
    let (n, errs, cs) := syncRun env dflt now rest
    (r.synced + n, r.err.toList ++ errs, r.calls ++ cs)

/-- Result of a whole sync run: the item table after `db.session.commit()`,
the returned `(synced_items, errors)` pair, and the API requests issued. -/
structure SyncResult where
  items : List Item
  count : Nat
  errors : List String
  calls : List ApiCall
deriving DecidableEq, Repr

/-- Embedding of `sync_low_inventory_items` (`app/utils/google_tasks.py`):
fail fast when unauthenticated or when no default task list is configured;
otherwise run the loop over the low-stock selection.  The ORM mutates the
selected items in place and commits, modelled by replacing each low-stock
item with its post-iteration state. -/
def sync_low_inventory_items (env : SyncEnv) (now : Int) (db : List Item) :
    SyncResult :=
  if !env.authenticated then
    ⟨db, 0, ["Google Tasks not authenticated: " ++ env.authError], []⟩
  else
    match env.defaultTasklist with
    | none => ⟨db, 0, ["No default task list configured."], []⟩
    | some dflt =>
      let r := syncRun env dflt now (db.filter lowStock)
      ⟨db.map (fun it => if lowStock it then (syncStep env dflt now it).item else it),
        r.1, r.2.1, r.2.2⟩

/-! ## Concrete data for the closed instances -/

/-- A small store: two categories, three items, no low-stock timestamps
needed. -/
def dbW : List Item :=
  [⟨1, "banan", "frukt", some 1, "st", some 2, some 0, none, none⟩,
   ⟨2, "apelsin", "frukt", some 5, "st", some 2, none, none, none⟩,
   ⟨3, "mutter", "verktyg", some 3, "st", some 1, none, none, none⟩]

/-- Two categories with one item each: page size 1 then returns one item per
category, i.e. two items on page 1. -/
def dbTwoCats : List Item :=
  [⟨1, "apple", "fruit", some 1, "st", some 2, none, none, none⟩,
   ⟨2, "bolt", "hardware", some 1, "st", some 2, none, none, none⟩]

/-- A concrete sync environment with every response fixed. -/
def mkEnv (auth : Bool) (dfl : Option (String × String)) (upd : Bool)
    (addRes : Option String) : SyncEnv :=
  { authenticated := auth
    authError := "no token"
    defaultTasklist := dfl
    mapping := fun _ => none
    updateTask := fun _ _ _ _ => upd
    addTask := fun _ _ _ => addRes
    apiError := "api error" }

/-- A sync environment with no default task list but a mapping for every
category. -/
def envAllMapped : SyncEnv :=
  { authenticated := true
    authError := ""
    defaultTasklist := none
    mapping := fun c => some ("list-" ++ c, c)
    updateTask := fun _ _ _ _ => true
    addTask := fun _ _ _ => some "tid"
    apiError := "" }

/-- Low-stock item already synced and unchanged: `task_id` set,
`last_checked = 50 ≤ added_to_task = 100`. -/
def itSkip : Item := ⟨1, "mjol", "skafferi", some 1, "kg", some 2, some 50, some "t1", some 100⟩

/-- Low-stock item checked after its last sync (`last_checked = 200 >
added_to_task = 100`), with a stale remote task id. -/
def itRetry : Item := ⟨2, "socker", "skafferi", some 0, "kg", some 1, some 200, some "t0", some 100⟩

/-- Low-stock item never synced (no task id). -/
def itNew : Item := ⟨3, "salt", "skafferi", some 0, "kg", some 1, some 200, none, none⟩

/-- A store holding one item whose category name is the empty string — a
state reachable through the unvalidated category field of the update form. -/
def dbEmptyCat : List Item :=
  [⟨1, "ghost", "", some 1, "st", some 2, none, none, none⟩]

/-- A store mixing a normally categorised item with an empty-category one. -/
def dbMixedCat : List Item :=
  [⟨1, "apple", "fruit", some 1, "st", some 2, none, none, none⟩,
   ⟨2, "ghost", "", some 1, "st", some 2, none, none, none⟩]


/-! ## Auxiliary lemmas -/

theorem lexLe_total : ∀ xs ys : List Char, lexLe xs ys = true ∨ lexLe ys xs = true
  | [], _ => Or.inl rfl
  | _ :: _, [] => Or.inr rfl
  | c :: cs, d :: ds => by
    simp only [lexLe]
    rcases lexLe_total cs ds with h | h <;> split_ifs <;> simp [h]

theorem lexLe_trans : ∀ xs ys zs : List Char,
    lexLe xs ys = true → lexLe ys zs = true → lexLe xs zs = true
  | [], _, _ => fun _ _ => rfl
  | _ :: _, [], _ => fun h _ => by simp [lexLe] at h
  | _ :: _, _ :: _, [] => fun _ h => by simp [lexLe] at h
  | c :: cs, d :: ds, e :: es => fun h1 h2 => by
    simp only [lexLe] at h1 h2 ⊢
    split_ifs at h1 h2 ⊢ <;>
      first
        | rfl
        | omega
        | exact lexLe_trans cs ds es h1 h2
theorem get_items_eq_core (db : List Item) (p s : Nat) (hp : 1 ≤ p) (hs : 1 ≤ s) :
    get_items_by_category db (p : Int) (s : Int) = getItemsCore db p s := by
  have h1 : ¬((p : Int) < 1) := by omega
  have h2 : ¬((s : Int) < 1) := by omega
  simp [get_items_by_category, h1, h2]

theorem flatMap_range_chunks {α : Type} (s : Nat) :
    ∀ (P : Nat) (L : List α), L.length ≤ P * s →
      (List.range P).flatMap (fun i => (L.drop (i * s)).take s) = L := by
  intro P
  induction P with
  | zero =>
    intro L h
    simp only [Nat.zero_mul, Nat.le_zero] at h
    simp [List.eq_nil_of_length_eq_zero h]
  | succ P ih =>
    intro L h
    rw [List.range_succ_eq_map, List.flatMap_cons, List.flatMap_map]
    have hstep : ∀ i : Nat,
        ((L.drop (Nat.succ i * s)).take s) = (((L.drop s).drop (i * s)).take s) := by
      intro i
      rw [List.drop_drop]
      congr 2
      rw [Nat.succ_mul]
      ring
    simp only [hstep]
    rw [ih (L.drop s) (by rw [List.length_drop]; rw [Nat.succ_mul] at h; omega)]
    simp only [Nat.zero_mul, List.drop_zero]
    exact List.take_append_drop s L

theorem getCat_filterMap (db : List Item) (p s : Nat) (c : String) :
    ∀ (cs : List String), cs.Nodup →
      getCat (cs.filterMap (entryFor db p s)) c =
        if c ∈ cs ∧ c ≠ "" then pageSlice db p s c else [] := by
  intro cs
  induction cs with
  | nil => intro _; simp [getCat]
  | cons c0 cs ih =>
    intro hnd
    have hnd' := List.nodup_cons.mp hnd
    rw [List.filterMap_cons]
    rcases h0 : entryFor db p s c0 with _ | e
    · rw [ih hnd'.2]
      by_cases hc : c = c0
      · subst hc
        simp only [entryFor] at h0
        split_ifs at h0 with h1 h2
        · simp [h1]
        · have hslice : pageSlice db p s c = [] := List.isEmpty_iff.mp h2
          simp [hnd'.1, hslice, h1]
      · simp [List.mem_cons, hc]
    · simp only [entryFor] at h0
      split_ifs at h0 with h1 h2
      injection h0 with h0
      subst h0
      simp only [getCat]
      by_cases hc : c0 = c
      · subst hc
        simp [h1]
      · rw [if_neg hc, ih hnd'.2]
        have hc' : ¬c = c0 := fun h => hc h.symm
        simp [List.mem_cons, hc']

theorem getCat_core (db : List Item) (p s : Nat) (c : String)
    (hcat : ∀ it ∈ db, it.category ≠ "") :
    getCat (getItemsCore db p s) c = pageSlice db p s c := by
  have hnd : (distinctCategories db).Nodup := by
    show ((db.map (·.category)).dedup).Nodup
    exact List.nodup_dedup _
  rw [getItemsCore, getCat_filterMap db p s c (distinctCategories db) hnd]
  by_cases hmem : c ∈ distinctCategories db ∧ c ≠ ""
  · simp [hmem]
  · rw [if_neg hmem]
    have hfil : db.filter (fun it => it.category == c) = [] := by
      rw [List.filter_eq_nil_iff]
      intro it hit
      simp only [beq_iff_eq]
      intro hceq
      rcases not_and_or.mp hmem with h | h
      · exact h (by
          show c ∈ (db.map (·.category)).dedup
          rw [List.mem_dedup, ← hceq]
          exact List.mem_map_of_mem _ hit)
      · exact hcat it hit (hceq.trans (not_not.mp h))
    simp [pageSlice, catItemsSorted, hfil]

theorem getCat_core_ne (db : List Item) (p s : Nat) (c : String) (hc : c ≠ "") :
    getCat (getItemsCore db p s) c = pageSlice db p s c := by
  have hnd : (distinctCategories db).Nodup := by
    show ((db.map (·.category)).dedup).Nodup
    exact List.nodup_dedup _
  rw [getItemsCore, getCat_filterMap db p s c (distinctCategories db) hnd]
  by_cases hmem : c ∈ distinctCategories db
  · simp [hmem, hc]
  · rw [if_neg (fun h => hmem h.1)]
    have hfil : db.filter (fun it => it.category == c) = [] := by
      rw [List.filter_eq_nil_iff]
      intro it hit
      simp only [beq_iff_eq]
      intro hceq
      exact hmem (by
        show c ∈ (db.map (·.category)).dedup
        rw [List.mem_dedup, ← hceq]
        exact List.mem_map_of_mem _ hit)
    simp [pageSlice, catItemsSorted, hfil]

theorem getCat_core_empty (db : List Item) (p s : Nat) :
    getCat (getItemsCore db p s) "" = [] := by
  have hnd : (distinctCategories db).Nodup := by
    show ((db.map (·.category)).dedup).Nodup
    exact List.nodup_dedup _
  rw [getItemsCore, getCat_filterMap db p s "" (distinctCategories db) hnd]
  simp

theorem getCat_pages (db : List Item) (hcat : ∀ it ∈ db, it.category ≠ "")
    (p s : Nat) (hp : 1 ≤ p) (hs : 1 ≤ s) (c : String) :
    getCat (get_items_by_category db (p : Int) (s : Int)) c = pageSlice db p s c := by
  rw [get_items_eq_core db p s hp hs, getCat_core db p s c hcat]

theorem allPagesCat_eq (db : List Item) (hcat : ∀ it ∈ db, it.category ≠ "")
    (P s : Nat) (hs : 1 ≤ s) (c : String)
    (hlen : (catItemsSorted db c).length ≤ P * s) :
    allPagesCat db P s c = catItemsSorted db c := by
  unfold allPagesCat
  have hterm : ∀ i : Nat,
      getCat (get_items_by_category db ((i : Int) + 1) (s : Int)) c =
        ((catItemsSorted db c).drop (i * s)).take s := by
    intro i
    have hcast : ((i : Int) + 1) = ((i + 1 : Nat) : Int) := by push_cast; ring
    rw [hcast, getCat_pages db hcat (i + 1) s (by omega) hs c]
    simp [pageSlice]
  simp only [hterm]
  exact flatMap_range_chunks s P _ hlen

theorem sum_map_ite {β : Type} [DecidableEq β] (k : β) (n : Nat) :
    ∀ (cs : List β), cs.Nodup →
      (cs.map (fun c => if k = c then n else 0)).sum = if k ∈ cs then n else 0 := by
  intro cs
  induction cs with
  | nil => intro _; simp
  | cons c0 cs ih =>
    intro hnd
    have h := List.nodup_cons.mp hnd
    rw [List.map_cons, List.sum_cons, ih h.2]
    by_cases hk : k = c0
    · subst hk
      simp [h.1]
    · simp [hk, List.mem_cons]

theorem flatMap_sorted_perm (db : List Item) :
    ((distinctCategories db).flatMap (fun c => catItemsSorted db c)).Perm db := by
  rw [List.perm_iff_count]
  intro x
  rw [List.count_flatMap]
  have hfun : ∀ c ∈ distinctCategories db,
      (List.count x ∘ fun c => catItemsSorted db c) c =
        (fun c => if x.category = c then List.count x db else 0) c := by
    intro c _
    simp only [Function.comp]
    rw [catItemsSorted, (List.perm_insertionSort nameLe _).count_eq x]
    by_cases hc : x.category = c
    · rw [if_pos hc]
      exact List.count_filter (by simp [hc])
    · rw [if_neg hc]
      refine List.count_eq_zero.mpr ?_
      intro hmem
      exact hc (by simpa using (List.mem_filter.mp hmem).2)
  rw [List.map_congr_left hfun]
  have hnd : (distinctCategories db).Nodup := by
    show ((db.map (·.category)).dedup).Nodup
    exact List.nodup_dedup _
  rw [sum_map_ite x.category (List.count x db) _ hnd]
  by_cases hx : x.category ∈ distinctCategories db
  · simp [hx]
  · rw [if_neg hx]
    symm
    refine List.count_eq_zero.mpr ?_
    intro hmem
    refine hx ?_
    show x.category ∈ (db.map (·.category)).dedup
    rw [List.mem_dedup]
    exact List.mem_map_of_mem _ hmem

theorem pageItems_filterMap (db : List Item) (p s : Nat) :
    ∀ cs : List String,
      (cs.filterMap (entryFor db p s)).flatMap (fun e => e.2) =
        cs.flatMap (fun c => if c = "" then [] else pageSlice db p s c) := by
  intro cs
  induction cs with
  | nil => rfl
  | cons c0 cs ih =>
    rw [List.flatMap_cons, List.filterMap_cons]
    rcases h0 : entryFor db p s c0 with _ | e
    · simp only [entryFor] at h0
      split_ifs at h0 with h1 h2
      · rw [ih, if_pos h1]
        rfl
      · rw [ih, if_neg h1, List.isEmpty_iff.mp h2]
        rfl
    · simp only [entryFor] at h0
      split_ifs at h0 with h1 h2
      injection h0 with h0
      subst h0
      rw [List.flatMap_cons, ih, if_neg h1]

theorem allPagesFlatten_perm (db : List Item) (hcat : ∀ it ∈ db, it.category ≠ "")
    (P s : Nat) (hs : 1 ≤ s) (hP : db.length ≤ P * s) :
    (allPagesFlatten db P s).Perm db := by
  unfold allPagesFlatten
  have hpage : ∀ i : Nat,
      pageItems (get_items_by_category db ((i : Int) + 1) (s : Int)) =
        (distinctCategories db).flatMap
          (fun c => if c = "" then [] else pageSlice db (i + 1) s c) := by
    intro i
    have hcast : ((i : Int) + 1) = ((i + 1 : Nat) : Int) := by push_cast; ring
    rw [hcast, get_items_eq_core db (i + 1) s (by omega) hs]
    exact pageItems_filterMap db (i + 1) s _
  simp only [hpage]
  have hswap :
      ((List.range P).flatMap (fun i => (distinctCategories db).flatMap
        (fun c => if c = "" then [] else pageSlice db (i + 1) s c))).Perm
      ((distinctCategories db).flatMap (fun c => (List.range P).flatMap
        (fun i => if c = "" then [] else pageSlice db (i + 1) s c))) := by
    rw [← Multiset.coe_eq_coe]
    simp only [← Multiset.coe_bind]
    exact Multiset.bind_bind _ _
  refine hswap.trans ?_
  have hinner : ∀ c ∈ distinctCategories db,
      (List.range P).flatMap (fun i => if c = "" then [] else pageSlice db (i + 1) s c) =
        catItemsSorted db c := by
    intro c hc
    have hc' : c ≠ "" := by
      have : c ∈ db.map (·.category) := by
        have := hc
        rw [show distinctCategories db = (db.map (·.category)).dedup from rfl,
          List.mem_dedup] at this
        exact this
      rcases List.mem_map.mp this with ⟨it, hit, heq⟩
      rw [← heq]
      exact hcat it hit
    simp only [if_neg hc']
    have hlen : (catItemsSorted db c).length ≤ P * s := by
      have h1 : (catItemsSorted db c).length =
          (db.filter (fun it => it.category == c)).length := by
        rw [catItemsSorted]
        exact List.length_insertionSort _ _
      have h2 := List.length_filter_le (fun it => it.category == c) db
      omega
    simp only [show ∀ i : Nat, pageSlice db (i + 1) s c =
        ((catItemsSorted db c).drop (i * s)).take s from fun i => by simp [pageSlice]]
    exact flatMap_range_chunks s P _ hlen
  rw [List.flatMap_congr hinner]
  exact flatMap_sorted_perm db

theorem syncRun_count (env : SyncEnv) (dflt : String × String) (now : Int) :
    ∀ items : List Item,
      (syncRun env dflt now items).1 =
        (items.map (fun it => (syncStep env dflt now it).synced)).sum := by
  intro items
  induction items with
  | nil => rfl
  | cons it rest ih => simp [syncRun, ih]

theorem syncRun_errors (env : SyncEnv) (dflt : String × String) (now : Int) :
    ∀ items : List Item,
      (syncRun env dflt now items).2.1 =
        items.filterMap (fun it => (syncStep env dflt now it).err) := by
  intro items
  induction items with
  | nil => rfl
  | cons it rest ih =>
    rw [List.filterMap_cons]
    rcases h : (syncStep env dflt now it).err with _ | e <;>
      simp [syncRun, ih, h]

theorem syncRun_calls (env : SyncEnv) (dflt : String × String) (now : Int) :
    ∀ items : List Item,
      (syncRun env dflt now items).2.2 =
        items.flatMap (fun it => (syncStep env dflt now it).calls) := by
  intro items
  induction items with
  | nil => rfl
  | cons it rest ih => simp [syncRun, ih]

theorem syncStep_err_of_failed (env : SyncEnv) (dflt : String × String)
    (now : Int) (it : Item) (hsk : shouldSkip it = false)
    (hfail : (syncStep env dflt now it).synced = 0) :
    (syncStep env dflt now it).err.isSome = true := by
  simp only [syncStep, hsk, Bool.false_eq_true, if_false] at hfail ⊢
  rcases hadd : env.addTask it.name (itemNotes it) (resolveTasklist env dflt it.category)
      with _ | nid <;>
    by_cases h1 : truthyStr it.task_id = true <;>
    by_cases h2 : env.updateTask (it.task_id.getD "") (resolveTasklist env dflt it.category)
        it.name (itemNotes it) = true <;>
    simp [h1, h2, hadd] at hfail ⊢


/-! ## Claims C1, C2, C8 -/
/-- C1: for present quantities `get_warning_color` is orange on equality, red
below the alert threshold and green above it; a missing value on either side
gives grey; in particular quantity 1 against threshold 2 is red. -/
theorem warning_color_spec :
    ∀ (qv av : Int) (q a : Option Int),
      get_warning_color (some qv) (some av) =
        (if qv = av then "#ff9800aa"
         else if qv < av then "#ff0000aa" else "#00ff00aa") ∧
      get_warning_color none a = "grey" ∧
      get_warning_color q none = "grey" ∧
      get_warning_color (some 1) (some 2) = "#ff0000aa" := by
  intro qv av q a
  refine ⟨?_, rfl, ?_, rfl⟩
  · simp only [get_warning_color]
    split_ifs <;> first | rfl | omega
  · cases q <;> rfl

/-- C2: row color matches the recency buckets on the whole-day difference:
less than one day green, at least one and under four days orange, four to
eight days dark-orange, otherwise red; an absent timestamp gives grey. -/
theorem row_color_spec :
    ∀ (now t : Int),
      get_row_color now (some t) =
        (if daysDifference now t < 1 then "#00ff00aa"
         else if daysDifference now t < 4 then "#ff9800aa"
         else if daysDifference now t ≤ 8 then "#ff8c00aa"
         else "#ff0000aa") ∧
      get_row_color now none = "grey" := by
  intro now t
  refine ⟨?_, rfl⟩
  simp only [get_row_color]
  split_ifs <;> first | rfl | omega

/-- C8: both classifiers are deterministic and side-effect free: two calls
from states agreeing on the clock return the same string, and each call
returns its starting state unchanged. -/
theorem classifier_pure (st st' : ProgState) (t q a : Option Int)
    (hclock : st.clock = st'.clock) :
    (get_row_color_call st t).1 = (get_row_color_call st' t).1 ∧
    (get_row_color_call st t).2 = st ∧
    (get_warning_color_call st q a).1 = (get_warning_color_call st' q a).1 ∧
    (get_warning_color_call st q a).2 = st := by
  refine ⟨?_, rfl, rfl, rfl⟩
  simp only [get_row_color_call, hclock]

/-- Witness for C8 at concrete states sharing the clock. -/
theorem classifier_pure_witness :
    (get_row_color_call ⟨5, []⟩ (some 3)).1 =
      (get_row_color_call ⟨5, [⟨1, "a", "c", some 1, "st", some 2, none, none, none⟩]⟩ (some 3)).1 ∧
    (get_row_color_call ⟨5, []⟩ (some 3)).2 = ⟨5, []⟩ ∧
    (get_warning_color_call ⟨5, []⟩ (some 1) (some 2)).1 =
      (get_warning_color_call ⟨5, [⟨1, "a", "c", some 1, "st", some 2, none, none, none⟩]⟩ (some 1) (some 2)).1 ∧
    (get_warning_color_call ⟨5, []⟩ (some 1) (some 2)).2 = ⟨5, []⟩ :=
  classifier_pure ⟨5, []⟩ ⟨5, [⟨1, "a", "c", some 1, "st", some 2, none, none, none⟩]⟩
    (some 3) (some 1) (some 2) rfl

/-! ## Claims C3, C4, C7 -/

/-- C3 as stated is false: the grouping loop skips an item whose category
name is the empty string (a state the unvalidated update form can store), so
such an item appears on no page at all and the concatenation of all pages no
longer reproduces the stored item set. -/
theorem pagination_empty_category_counterexample :
    ¬(allPagesFlatten dbEmptyCat 1 50).Perm dbEmptyCat := by decide

/-- C3 (amended): for a store in which every item's category name is
non-empty — items with an empty category name are skipped by the loop and
appear on no page — the pages of `get_items_by_category`, with page size `s`
and enough pages to cover the table, together reproduce the stored item set
exactly once (their concatenation is a permutation of the table), and the
lists returned for any single category, concatenated over all pages, are
exactly that category's items sorted by name. -/
theorem pagination_exhaustive (db : List Item) (P s : Nat) (c : String)
    (hs : 1 ≤ s) (hcat : ∀ it ∈ db, it.category ≠ "") (hP : db.length ≤ P * s) :
    (allPagesFlatten db P s).Perm db ∧
    List.Sorted nameLe (allPagesCat db P s c) ∧
    (allPagesCat db P s c).Perm (db.filter (fun it => it.category == c)) := by
  have hlen : (catItemsSorted db c).length ≤ P * s := by
    have h1 : (catItemsSorted db c).length =
        (db.filter (fun it => it.category == c)).length := by
      rw [catItemsSorted]
      exact List.length_insertionSort _ _
    have h2 := List.length_filter_le (fun it => it.category == c) db
    omega
  have hcatEq := allPagesCat_eq db hcat P s hs c hlen
  refine ⟨allPagesFlatten_perm db hcat P s hs hP, ?_, ?_⟩
  · rw [hcatEq, catItemsSorted]
    exact @List.sorted_insertionSort Item nameLe _
      ⟨fun a b => lexLe_total a.name.data b.name.data⟩
      ⟨fun a b c => lexLe_trans a.name.data b.name.data c.name.data⟩ _
  · rw [hcatEq, catItemsSorted]
    exact List.perm_insertionSort nameLe _

/-- Witness for C3: three items in two categories, page size 2, two pages. -/
theorem pagination_exhaustive_witness :
    (allPagesFlatten dbW 2 2).Perm dbW ∧
    List.Sorted nameLe (allPagesCat dbW 2 2 "frukt") ∧
    (allPagesCat dbW 2 2 "frukt").Perm (dbW.filter (fun it => it.category == "frukt")) :=
  pagination_exhaustive dbW 2 2 "frukt" (by decide) (by decide) (by decide)

/-- C4 as stated is false: the slice is not taken from the combined result
set, and a page may hold more than `items_per_page` items in total.  With two
categories of one item each and `items_per_page = 1`, page 1 returns two
items. -/
theorem pagination_combined_slice_counterexample :
    ¬((pageItems (get_items_by_category dbTwoCats 1 1)).length ≤ 1) := by decide

/-- C4 (amended): `get_items_by_category` groups items by category
(alphabetical by name within each category) and applies the
`offset (p-1)*s, limit s` slice to each category independently — so a page
holds up to `s` items per category, not `s` in total; categories whose slice
is empty are omitted, a category whose name is the empty string is skipped
entirely (its items never appear), and every returned entry is keyed by a
non-empty category and holds a non-empty list. -/
theorem pagination_per_category (db : List Item) (p s : Nat) (c : String)
    (hp : 1 ≤ p) (hs : 1 ≤ s) (hc : c ≠ "") :
    getCat (get_items_by_category db (p : Int) (s : Int)) c =
      ((catItemsSorted db c).drop ((p - 1) * s)).take s ∧
    (getCat (get_items_by_category db (p : Int) (s : Int)) c).length ≤ s ∧
    getCat (get_items_by_category db (p : Int) (s : Int)) "" = [] ∧
    ∀ e ∈ get_items_by_category db (p : Int) (s : Int), e.1 ≠ "" ∧ e.2 ≠ [] := by
  have h : getCat (get_items_by_category db (p : Int) (s : Int)) c =
      pageSlice db p s c := by
    rw [get_items_eq_core db p s hp hs, getCat_core_ne db p s c hc]
  refine ⟨h, ?_, ?_, ?_⟩
  · rw [h]
    exact List.length_take_le _ _
  · rw [get_items_eq_core db p s hp hs, getCat_core_empty db p s]
  · intro e he
    rw [get_items_eq_core db p s hp hs, getItemsCore] at he
    rcases List.mem_filterMap.mp he with ⟨c0, _, hent⟩
    simp only [entryFor] at hent
    split_ifs at hent with h1 h2
    injection hent with hent
    subst hent
    exact ⟨h1, fun hnil => h2 (List.isEmpty_iff.mpr hnil)⟩

/-- Witness for the amended C4 at page 1, size 1, category `fruit`, on a
store that also holds an empty-category item (which is omitted). -/
theorem pagination_per_category_witness :
    getCat (get_items_by_category dbMixedCat 1 1) "fruit" =
      ((catItemsSorted dbMixedCat "fruit").drop 0).take 1 ∧
    (getCat (get_items_by_category dbMixedCat 1 1) "fruit").length ≤ 1 ∧
    getCat (get_items_by_category dbMixedCat 1 1) "" = [] ∧
    ∀ e ∈ get_items_by_category dbMixedCat 1 1, e.1 ≠ "" ∧ e.2 ≠ [] :=
  pagination_per_category dbMixedCat 1 1 "fruit" (by decide) (by decide) (by decide)

/-- C7: an out-of-range `page` argument falls back to page 1, and an
out-of-range `items_per_page` argument falls back to 50. -/
theorem pagination_default_fallback (db : List Item) (page ipp : Int) :
    (page < 1 → get_items_by_category db page ipp = get_items_by_category db 1 ipp) ∧
    (ipp < 1 → get_items_by_category db page ipp = get_items_by_category db page 50) := by
  constructor
  · intro h
    simp only [get_items_by_category]
    norm_num [h]
  · intro h
    simp only [get_items_by_category]
    norm_num [h]
    congr 1

/-- Witness for C7: page 0 behaves as page 1, size 0 behaves as size 50. -/
theorem pagination_default_fallback_witness :
    get_items_by_category dbTwoCats 0 7 = get_items_by_category dbTwoCats 1 7 ∧
    get_items_by_category dbTwoCats 3 0 = get_items_by_category dbTwoCats 3 50 :=
  ⟨(pagination_default_fallback dbTwoCats 0 7).1 (by decide),
   (pagination_default_fallback dbTwoCats 3 0).2 (by decide)⟩

/-! ## Claims C5, C6, C9, C10 -/

/-- C5: a low-stock item that is already synced (truthy `task_id`) and
unchanged since its last sync (`last_checked ≤ added_to_task`) is skipped:
its loop iteration issues no API request, changes nothing, counts nothing and
reports nothing, and the item is unchanged in the committed table. -/
theorem sync_skips_synced_unchanged (env : SyncEnv) (now : Int)
    (dflt : String × String) (db : List Item) (it : Item) (i : Nat)
    (tid : String) (att lc : Int)
    (hauth : env.authenticated = true) (hdflt : env.defaultTasklist = some dflt)
    (htid : it.task_id = some tid) (htid' : tid ≠ "")
    (hatt : it.added_to_task = some att) (hlc : it.last_checked = some lc)
    (hle : lc ≤ att) (hlow : lowStock it = true) (hi : db[i]? = some it) :
    syncStep env dflt now it = ⟨it, 0, none, []⟩ ∧
    (sync_low_inventory_items env now db).items[i]? = some it := by
  have hskip : shouldSkip it = true := by
    simp [shouldSkip, truthyStr, htid, hatt, hlc, htid', hle]
  constructor
  · simp [syncStep, hskip]
  · simp only [sync_low_inventory_items, hauth, Bool.not_true, Bool.false_eq_true,
      if_false, hdflt]
    rw [List.getElem?_map, hi]
    simp [hlow, syncStep, hskip]

/-- Witness for C5: the skipped item survives the run untouched. -/
theorem sync_skips_synced_unchanged_witness :
    syncStep (mkEnv true (some ("L1", "Lista")) true none) ("L1", "Lista") 300 itSkip =
      ⟨itSkip, 0, none, []⟩ ∧
    (sync_low_inventory_items (mkEnv true (some ("L1", "Lista")) true none) 300
      [itSkip]).items[0]? = some itSkip :=
  sync_skips_synced_unchanged (mkEnv true (some ("L1", "Lista")) true none) 300
    ("L1", "Lista") [itSkip] itSkip 0 "t1" 100 50 rfl rfl rfl (by decide) rfl rfl
    (by decide) (by decide) rfl

/-- C6: the run returns the `(synced_items, errors)` aggregate of independent
per-item outcomes: the count is the sum of the per-item success flags, the
error list collects exactly the per-item error strings in order, the
committed table and the requests issued decompose per item — so one item's
failure never affects another item's processing — and a non-skipped item that
does not count as synced always contributes an error string. -/
theorem sync_batch_isolation (env : SyncEnv) (now : Int)
    (dflt : String × String) (db : List Item)
    (hauth : env.authenticated = true) (hdflt : env.defaultTasklist = some dflt) :
    (sync_low_inventory_items env now db).count =
      ((db.filter lowStock).map (fun it => (syncStep env dflt now it).synced)).sum ∧
    (sync_low_inventory_items env now db).errors =
      (db.filter lowStock).filterMap (fun it => (syncStep env dflt now it).err) ∧
    (sync_low_inventory_items env now db).items =
      db.map (fun it => if lowStock it then (syncStep env dflt now it).item else it) ∧
    (sync_low_inventory_items env now db).calls =
      (db.filter lowStock).flatMap (fun it => (syncStep env dflt now it).calls) ∧
    ∀ it ∈ db.filter lowStock, shouldSkip it = false →
      (syncStep env dflt now it).synced = 0 →
        (syncStep env dflt now it).err.isSome = true := by
  have hrun : sync_low_inventory_items env now db =
      ⟨db.map (fun it => if lowStock it then (syncStep env dflt now it).item else it),
        (syncRun env dflt now (db.filter lowStock)).1,
        (syncRun env dflt now (db.filter lowStock)).2.1,
        (syncRun env dflt now (db.filter lowStock)).2.2⟩ := by
    simp [sync_low_inventory_items, hauth, hdflt]
  rw [hrun]
  refine ⟨syncRun_count env dflt now _, syncRun_errors env dflt now _,
    rfl, syncRun_calls env dflt now _, ?_⟩
  intro it _ hsk hfail
  exact syncStep_err_of_failed env dflt now it hsk hfail

/-- Witness for C6: one item fails to sync (task creation refused), a second
is synced; the aggregate still reports both. -/
theorem sync_batch_isolation_witness :
    (sync_low_inventory_items (mkEnv true (some ("L1", "Lista")) false none) 300
      [itRetry, itSkip]).count =
      (([itRetry, itSkip].filter lowStock).map
        (fun it => (syncStep (mkEnv true (some ("L1", "Lista")) false none)
          ("L1", "Lista") 300 it).synced)).sum ∧
    (sync_low_inventory_items (mkEnv true (some ("L1", "Lista")) false none) 300
      [itRetry, itSkip]).errors =
      ([itRetry, itSkip].filter lowStock).filterMap
        (fun it => (syncStep (mkEnv true (some ("L1", "Lista")) false none)
          ("L1", "Lista") 300 it).err) ∧
    (sync_low_inventory_items (mkEnv true (some ("L1", "Lista")) false none) 300
      [itRetry, itSkip]).items =
      [itRetry, itSkip].map
        (fun it => if lowStock it
          then (syncStep (mkEnv true (some ("L1", "Lista")) false none)
            ("L1", "Lista") 300 it).item
          else it) ∧
    (sync_low_inventory_items (mkEnv true (some ("L1", "Lista")) false none) 300
      [itRetry, itSkip]).calls =
      ([itRetry, itSkip].filter lowStock).flatMap
        (fun it => (syncStep (mkEnv true (some ("L1", "Lista")) false none)
          ("L1", "Lista") 300 it).calls) ∧
    ∀ it ∈ [itRetry, itSkip].filter lowStock, shouldSkip it = false →
      (syncStep (mkEnv true (some ("L1", "Lista")) false none)
        ("L1", "Lista") 300 it).synced = 0 →
        (syncStep (mkEnv true (some ("L1", "Lista")) false none)
          ("L1", "Lista") 300 it).err.isSome = true :=
  sync_batch_isolation (mkEnv true (some ("L1", "Lista")) false none) 300
    ("L1", "Lista") [itRetry, itSkip] rfl rfl

/-- C9: with no default task list configured, the authenticated sync run
stops before touching any item: it returns count 0 with exactly the error
`"No default task list configured."`, issues no API request and leaves the
table unchanged — whatever per-category mappings exist. -/
theorem sync_no_default_tasklist (env : SyncEnv) (now : Int) (db : List Item)
    (hauth : env.authenticated = true) (hdflt : env.defaultTasklist = none) :
    sync_low_inventory_items env now db =
      ⟨db, 0, ["No default task list configured."], []⟩ := by
  simp [sync_low_inventory_items, hauth, hdflt]

/-- Witness for C9: every category mapped, still only the configuration
error. -/
theorem sync_no_default_tasklist_witness :
    sync_low_inventory_items envAllMapped 300 [itRetry, itNew] =
      ⟨[itRetry, itNew], 0, ["No default task list configured."], []⟩ :=
  sync_no_default_tasklist envAllMapped 300 [itRetry, itNew] rfl rfl

/-- C10: when updating an item's existing remote task fails, the same
iteration clears the stored id and issues a create request; if the creation
succeeds the item ends the run carrying the new task id with `added_to_task`
stamped to the current time, and it is counted as synced. -/
theorem sync_update_failure_recreates (env : SyncEnv) (now : Int)
    (dflt : String × String) (db : List Item) (it : Item) (i : Nat)
    (tid newId : String)
    (hauth : env.authenticated = true) (hdflt : env.defaultTasklist = some dflt)
    (hsk : shouldSkip it = false) (htid : it.task_id = some tid) (htid' : tid ≠ "")
    (hupd : env.updateTask tid (resolveTasklist env dflt it.category) it.name
      (itemNotes it) = false)
    (hadd : env.addTask it.name (itemNotes it)
      (resolveTasklist env dflt it.category) = some newId)
    (hlow : lowStock it = true) (hi : db[i]? = some it) :
    syncStep env dflt now it =
      ⟨{ it with task_id := some newId, added_to_task := some now }, 1, none,
        [ApiCall.update tid (resolveTasklist env dflt it.category) it.name (itemNotes it),
          ApiCall.create it.name (itemNotes it) (resolveTasklist env dflt it.category)]⟩ ∧
    (sync_low_inventory_items env now db).items[i]? =
      some { it with task_id := some newId, added_to_task := some now } ∧
    ApiCall.create it.name (itemNotes it) (resolveTasklist env dflt it.category) ∈
      (sync_low_inventory_items env now db).calls := by
  have htr : truthyStr it.task_id = true := by
    simp [truthyStr, htid, htid']
  have hgd : it.task_id.getD "" = tid := by
    rw [htid]
    rfl
  have hstep : syncStep env dflt now it =
      ⟨{ it with task_id := some newId, added_to_task := some now }, 1, none,
        [ApiCall.update tid (resolveTasklist env dflt it.category) it.name (itemNotes it),
          ApiCall.create it.name (itemNotes it) (resolveTasklist env dflt it.category)]⟩ := by
    simp [syncStep, hsk, htr, hgd, hupd, hadd]
  refine ⟨hstep, ?_, ?_⟩
  · simp only [sync_low_inventory_items, hauth, Bool.not_true, Bool.false_eq_true,
      if_false, hdflt]
    rw [List.getElem?_map, hi]
    simp [hlow, hstep]
  · simp only [sync_low_inventory_items, hauth, Bool.not_true, Bool.false_eq_true,
      if_false, hdflt]
    rw [syncRun_calls env dflt now _]
    refine List.mem_flatMap.mpr ⟨it, ?_, ?_⟩
    · exact List.mem_filter.mpr ⟨List.getElem?_mem hi, hlow⟩
    · rw [hstep]
      simp

/-- Witness for C10: update refused, creation succeeds, the item ends with
the fresh task id. -/
theorem sync_update_failure_recreates_witness :
    syncStep (mkEnv true (some ("L1", "Lista")) false (some "fresh")) ("L1", "Lista")
      300 itRetry =
      ⟨{ itRetry with task_id := some "fresh", added_to_task := some 300 }, 1, none,
        [ApiCall.update "t0"
          (resolveTasklist (mkEnv true (some ("L1", "Lista")) false (some "fresh"))
            ("L1", "Lista") itRetry.category) itRetry.name (itemNotes itRetry),
          ApiCall.create itRetry.name (itemNotes itRetry)
            (resolveTasklist (mkEnv true (some ("L1", "Lista")) false (some "fresh"))
              ("L1", "Lista") itRetry.category)]⟩ ∧
    (sync_low_inventory_items (mkEnv true (some ("L1", "Lista")) false (some "fresh"))
      300 [itRetry]).items[0]? =
      some { itRetry with task_id := some "fresh", added_to_task := some 300 } ∧
    ApiCall.create itRetry.name (itemNotes itRetry)
      (resolveTasklist (mkEnv true (some ("L1", "Lista")) false (some "fresh"))
        ("L1", "Lista") itRetry.category) ∈
      (sync_low_inventory_items (mkEnv true (some ("L1", "Lista")) false (some "fresh"))
        300 [itRetry]).calls :=
  sync_update_failure_recreates (mkEnv true (some ("L1", "Lista")) false (some "fresh"))
    300 ("L1", "Lista") [itRetry] itRetry 0 "t0" "fresh" rfl rfl (by decide) rfl
    (by decide) rfl rfl (by decide) rfl
